import Mathlib

/-!
Verification development for the SFT data-preparation pipeline
(src/sft/code/prepare_data.py) and the distributed trainer
(src/tutorial/ddp/chargpt/trainer.py).

The Python code is shallowly embedded: the tokenizer's
apply_chat_template is an abstract render function passed as a
parameter, Python lists become Lean lists, the Python slice assignment
used by the masking loop is modelled exactly (including Python's bound
clamping), and the trainer's epoch loop becomes a fold over the list of
epoch numbers the Python range produces, instrumented with observation
logs for the processed epochs and the snapshot writes.
-/

namespace SFT

/-- A chat turn: a role ("user", "assistant", "system") and text content,
one element of the "conversation" list of prepare_data.py. -/
structure Turn where
  role : String
  content : String
deriving DecidableEq, Repr, Inhabited

/-- The record preprocess_chat_dataset returns: the data dict with keys
input_ids, labels and attention_mask. -/
structure TokenizedExample where
  input_ids : List Int
  labels : List Int
  attention_mask : List Int
deriving DecidableEq, Repr

/-- Default value of the INGORE_INDEX parameter of preprocess_chat_dataset
(the IGNORE sentinel -100; the misspelling is the source's). -/
def INGORE_INDEX : Int := -100

/-- Python list slice assignment as performed by the masking loop:
`lbls[s:e] = [v] * (e - s)` with 0 ≤ s, e. Python clamps the slice bounds
to the list length (and the stop bound below the clamped start bound),
while the assigned segment has exactly e - s elements: empty when e < s,
which Nat subtraction also gives. -/
def maskSlice (l : List Int) (s e : Nat) (v : Int) : List Int :=
  l.take (min s l.length) ++ List.replicate (e - s) v ++
    l.drop (max (min e l.length) (min s l.length))

/-- Length of tokenizer.apply_chat_template(messages[:k], add_generation_prompt=g),
the quantity the masking loop computes at every turn boundary. -/
def prefLen (render : List Turn → Bool → List Int) (messages : List Turn)
    (k : Nat) (g : Bool) : Nat :=
  (render (messages.take k) g).length

/-- message_start_idx of turn idx in preprocess_chat_dataset: 0 for the
first turn, otherwise the length of rendering turns [0, idx) without a
generation prompt. -/
def spanStart (render : List Turn → Bool → List Int) (messages : List Turn)
    (idx : Nat) : Nat :=
  if idx = 0 then 0 else prefLen render messages idx false

/-- message_end_idx of turn idx in preprocess_chat_dataset: the length of
rendering turns [0, idx], with the generation prompt appended exactly when
the immediately following turn exists and has role "assistant". -/
def spanEnd (render : List Turn → Bool → List Int) (messages : List Turn)
    (idx : Nat) : Nat :=
  if idx < messages.length - 1 ∧ (messages.getD (idx + 1) default).role = "assistant" then
    prefLen render messages (idx + 1) true
  else
    prefLen render messages (idx + 1) false

/-- One iteration of the masking loop of preprocess_chat_dataset: a turn
whose role is not "assistant" has labels[start:end] overwritten with the
sentinel, an assistant turn is skipped. -/
def maskTurnStep (render : List Turn → Bool → List Int) (messages : List Turn)
    (lbls : List Int) (idx : Nat) : List Int :=
  if (messages.getD idx default).role ≠ "assistant" then
    maskSlice lbls (spanStart render messages idx) (spanEnd render messages idx) INGORE_INDEX
  else
    lbls

/-- The whole masking loop: `for idx, message in enumerate(messages)`
folded over the turn indices, starting from the labels copy of input_ids. -/
def maskLabels (render : List Turn → Bool → List Int) (messages : List Turn)
    (inputs : List Int) : List Int :=
  (List.range messages.length).foldl (maskTurnStep render messages) inputs

/-- preprocess_chat_dataset of prepare_data.py. The tokenizer argument is
the abstract render function, the config contributes only its optional
"max_length" entry; the returned record is the data dict. input_ids is the
full render with a trailing generation prompt, labels starts as its copy
and goes through the masking loop, attention_mask is all ones; finally all
three are truncated to max_length when the config has one. -/
def preprocess_chat_dataset (render : List Turn → Bool → List Int)
    (messages : List Turn) (max_length : Option Nat) : TokenizedExample :=
  let inputs := render messages true
  let labels := maskLabels render messages inputs
  let attention_mask : List Int := List.replicate inputs.length 1
  match max_length with
  | some n => ⟨inputs.take n, labels.take n, attention_mask.take n⟩
  | none => ⟨inputs, labels, attention_mask⟩

/-- prompt_template of prepare_data.py, already applied to the question:
the triple-quoted string has a newline on each side of the placeholder. -/
def prompt_template (question : String) : String :=
  "\n" ++ question ++ "\n"

/-- response_template of prepare_data.py, applied to the rationale and the
final answer. Inside the triple-quoted source string every escape and every
physical line break is a real newline. -/
def response_template (cot response : String) : String :=
  "\n# Thinking\n\n\n" ++ cot ++ "\n\n\n## Final Response\n\n\n" ++ response ++ "\n"

/-- A raw record of the template-style dataset, with the three fields
apply_input_output_template reads. -/
structure RawRecord where
  Question : String
  Complex_CoT : String
  Response : String
deriving DecidableEq, Repr

/-- apply_input_output_template of prepare_data.py: builds the
two-turn conversation (the value stored under the "conversation" key). -/
def apply_input_output_template (record : RawRecord) : List Turn :=
  [⟨"user", prompt_template record.Question⟩,
   ⟨"assistant", response_template record.Complex_CoT record.Response⟩]

/-- The first token index of an assistant turn's span: the end of the
preceding turn's masked span (which includes the generation prompt) when
the preceding turn is not an assistant turn, the end of the preceding
assistant turn's rendering otherwise, and 0 for a conversation-initial
assistant turn. -/
def assistantSpanStart (render : List Turn → Bool → List Int) (messages : List Turn)
    (idx : Nat) : Nat :=
  if idx = 0 then 0
  else if (messages.getD (idx - 1) default).role ≠ "assistant" then
    prefLen render messages idx true
  else
    prefLen render messages idx false

/-- The concrete two-turn conversation of the spec's scenario. -/
def demoTurns : List Turn := [⟨"user", "2+2?"⟩, ⟨"assistant", "4"⟩]

/-- A concrete render function realizing the spec scenario's lengths:
rendering no turns gives 0 tokens, the user turn alone 3 tokens, the user
turn with the generation prompt 5 tokens, and the full conversation with
the generation prompt 9 tokens; each rendering extends the previous one. -/
def demoRender (ts : List Turn) (g : Bool) : List Int :=
  match ts.length, g with
  | 0, _ => []
  | 1, false => [10, 11, 12]
  | 1, true => [10, 11, 12, 13, 14]
  | _ + 2, false => [10, 11, 12, 13, 14, 20, 21, 22]
  | _ + 2, true => [10, 11, 12, 13, 14, 20, 21, 22, 23]

end SFT

namespace DDP

/-- The fields of trainer.py's TrainerConfig that the claims depend on;
batch_size, data_loader_workers and snapshot_path only parameterize the
external dataloader and storage collaborators. -/
structure TrainerConfig where
  max_epochs : Nat
  save_every : Nat
  use_amp : Bool
deriving DecidableEq, Repr

/-- The Snapshot dataclass of trainer.py, generic over the opaque model
and optimizer state-dict payloads. -/
structure Snapshot (σ τ : Type) where
  model_state : σ
  optimizer_state : τ
  finished_epoch : Nat
deriving DecidableEq, Repr

/-- The mutable per-process state of the Trainer class that the claims
depend on: the model replica, the optimizer state and the epochs_run
counter. -/
structure Trainer (σ τ : Type) where
  model : σ
  optimizer : τ
  epochs_run : Nat
deriving DecidableEq, Repr

/-- Trainer._load_snapshot: reading the snapshot file is modelled by an
Option (a missing file raises FileNotFoundError, which the source catches
and turns into an early return, leaving the trainer unchanged); the
returned string is the printed log line. -/
def loadSnapshot {σ τ : Type} (t : Trainer σ τ) (file : Option (Snapshot σ τ)) :
    Trainer σ τ × String :=
  match file with
  | none => (t, "Snapshot not found. Training model from scratch")
  | some snap =>
      ({ model := snap.model_state, optimizer := snap.optimizer_state,
         epochs_run := snap.finished_epoch },
       "Resuming training from snapshot at Epoch " ++ toString snap.finished_epoch)

/-- Trainer.__init__ as far as the training state is concerned: epochs_run
starts at 0 and _load_snapshot then runs against the configured path. -/
def initTrainer {σ τ : Type} (m0 : σ) (o0 : τ) (file : Option (Snapshot σ τ)) :
    Trainer σ τ × String :=
  loadSnapshot { model := m0, optimizer := o0, epochs_run := 0 } file

/-- Python range(a, b). -/
def pyRange (a b : Nat) : List Nat := List.range' a (b - a)

/-- The epoch numbers Trainer.train processes:
`for epoch in range(self.epochs_run, self.config.max_epochs)` with
`epoch += 1` as the first statement of the body. -/
def trainEpochs (epochs_run max_epochs : Nat) : List Nat :=
  (pyRange epochs_run max_epochs).map (fun e => e + 1)

/-- One run of Trainer.train, observed: final trainer state, snapshot file
content, the epochs processed (in order) and the epochs after which a
snapshot write happened. -/
structure RunResult (σ τ : Type) where
  trainer : Trainer σ τ
  file : Option (Snapshot σ τ)
  processed : List Nat
  writes : List Nat
deriving DecidableEq, Repr

/-- One iteration of the epoch loop of Trainer.train: run the training
epoch (the opaque runEpoch updates model and optimizer), then
`if self.local_rank == 0 and epoch % self.save_every == 0`, write the
snapshot with finished_epoch = epoch. The in-memory epochs_run field is
not touched by the loop body. -/
def epochStep {σ τ : Type} (cfg : TrainerConfig) (local_rank : Nat)
    (runEpoch : Nat → σ → τ → σ × τ) (r : RunResult σ τ) (epoch : Nat) :
    RunResult σ τ :=
  let mo := runEpoch epoch r.trainer.model r.trainer.optimizer
  { trainer := { model := mo.1, optimizer := mo.2, epochs_run := r.trainer.epochs_run }
    file := if local_rank = 0 ∧ epoch % cfg.save_every = 0 then
        some ⟨mo.1, mo.2, epoch⟩
      else r.file
    processed := r.processed ++ [epoch]
    writes := if local_rank = 0 ∧ epoch % cfg.save_every = 0 then
        r.writes ++ [epoch]
      else r.writes }

/-- Trainer.train of trainer.py: the epoch loop folded over the epoch
numbers the Python range produces, starting from the current trainer state
and snapshot file. -/
def Trainer.train {σ τ : Type} (cfg : TrainerConfig) (local_rank : Nat)
    (runEpoch : Nat → σ → τ → σ × τ) (t : Trainer σ τ)
    (file : Option (Snapshot σ τ)) : RunResult σ τ :=
  (trainEpochs t.epochs_run cfg.max_epochs).foldl (epochStep cfg local_rank runEpoch)
    { trainer := t, file := file, processed := [], writes := [] }

/-- The operations one call of Trainer._run_batch can perform. -/
inductive BatchOp where
  | forward
  | zeroGrad
  | backward
  | scaleBackward
  | clipGradNorm
  | optStep
  | scalerStep
  | scalerUpdate
deriving DecidableEq, Repr

/-- The operation trace of Trainer._run_batch: the forward loss is
computed first (inside set_grad_enabled/autocast); only under train=True
does the gradient work follow — zero_grad, then either the scaled backward
pass, norm clip, scaler step and scaler update (use_amp) or the plain
backward pass, norm clip and optimizer step. -/
def runBatchTrace (use_amp train : Bool) : List BatchOp :=
  [BatchOp.forward] ++
    (if train then
      [BatchOp.zeroGrad] ++
        (if use_amp then
          [BatchOp.scaleBackward, BatchOp.clipGradNorm, BatchOp.scalerStep,
            BatchOp.scalerUpdate]
        else
          [BatchOp.backward, BatchOp.clipGradNorm, BatchOp.optStep])
    else [])

/-- The training-step operation order exactly as the spec's sentence lists
it — zero gradients first, then the forward loss. Written from the spec's
words, to be compared with the trace of the code. -/
def specStepOrder (use_amp : Bool) : List BatchOp :=
  [BatchOp.zeroGrad, BatchOp.forward] ++
    (if use_amp then
      [BatchOp.scaleBackward, BatchOp.clipGradNorm, BatchOp.scalerStep,
        BatchOp.scalerUpdate]
    else
      [BatchOp.backward, BatchOp.clipGradNorm, BatchOp.optStep])

/-- A concrete stand-in for one training epoch over a Nat model and a Nat
optimizer payload, used by the concrete scenarios. -/
def demoStep (epoch model opt : Nat) : Nat × Nat := (model + epoch, opt + 1)

/-- First phase of the resume scenario: a fresh trainer (no snapshot file)
trained with max_epochs = k and cadence save_every = s. -/
def resumeRun1 {σ τ : Type} (f : Nat → σ → τ → σ × τ) (m0 : σ) (o0 : τ)
    (s k : Nat) (amp : Bool) : RunResult σ τ :=
  Trainer.train ⟨k, s, amp⟩ 0 f (initTrainer m0 o0 none).1 none

/-- Second phase of the resume scenario: a restarted trainer initialized
from the snapshot written by the first phase, trained to max_epochs = m. -/
def resumeRun2 {σ τ : Type} (f : Nat → σ → τ → σ × τ) (m0 : σ) (o0 : τ)
    (s m : Nat) (amp : Bool) (snap : Snapshot σ τ) : RunResult σ τ :=
  Trainer.train ⟨m, s, amp⟩ 0 f (initTrainer m0 o0 (some snap)).1 (some snap)

end DDP

namespace SFT

/-- When the span is in bounds, the Python slice assignment reduces to the
unclamped take/replicate/drop decomposition. -/
theorem maskSlice_of_le {l : List Int} {s e : Nat} (v : Int)
    (hse : s ≤ e) (hel : e ≤ l.length) :
    maskSlice l s e v = l.take s ++ (List.replicate (e - s) v ++ l.drop e) := by
  have hsl : s ≤ l.length := le_trans hse hel
  simp only [maskSlice, Nat.min_eq_left hsl, Nat.min_eq_left hel,
    Nat.max_eq_left hse, List.append_assoc]

/-- An in-bounds slice assignment preserves the list length. -/
theorem maskSlice_length {l : List Int} {s e : Nat} (v : Int)
    (hse : s ≤ e) (hel : e ≤ l.length) :
    (maskSlice l s e v).length = l.length := by
  rw [maskSlice_of_le v hse hel]
  simp only [List.length_append, List.length_take, List.length_replicate,
    List.length_drop]
  omega

/-- Pointwise effect of an in-bounds slice assignment: positions inside
[s, e) read the written value, positions outside are untouched. -/
theorem maskSlice_getElem? {l : List Int} {s e : Nat} (v : Int)
    (hse : s ≤ e) (hel : e ≤ l.length) (i : Nat) :
    (maskSlice l s e v)[i]? = if s ≤ i ∧ i < e then some v else l[i]? := by
  rw [maskSlice_of_le v hse hel]
  have hsl : s ≤ l.length := le_trans hse hel
  have hts : (l.take s).length = s := by
    simp only [List.length_take]
    omega
  by_cases h1 : i < s
  · rw [List.getElem?_append_left (by rw [hts]; exact h1),
      List.getElem?_take_of_lt h1, if_neg (by omega)]
  · rw [List.getElem?_append_right (by rw [hts]; omega), hts]
    by_cases h2 : i < e
    · rw [List.getElem?_append_left (by simp only [List.length_replicate]; omega),
        List.getElem?_replicate_of_lt (by omega), if_pos (by omega)]
    · rw [List.getElem?_append_right (by simp only [List.length_replicate]; omega),
        List.length_replicate, List.getElem?_drop, if_neg (by omega)]
      congr 1
      omega

/-- The masking loop, run over any list of turn indices whose masked spans
are in bounds, preserves the label-list length. -/
theorem maskFold_length (render : List Turn → Bool → List Int) (messages : List Turn) :
    ∀ (l : List Nat) (lbls : List Int),
      (∀ idx ∈ l, (messages.getD idx default).role ≠ "assistant" →
        spanStart render messages idx ≤ spanEnd render messages idx ∧
          spanEnd render messages idx ≤ lbls.length) →
      (l.foldl (maskTurnStep render messages) lbls).length = lbls.length := by
  intro l
  induction l with
  | nil => intro lbls _; rfl
  | cons a t ih =>
    intro lbls H
    simp only [List.foldl_cons]
    by_cases ha : (messages.getD a default).role ≠ "assistant"
    · have hb := H a (List.mem_cons_self a t) ha
      have hlen : (maskTurnStep render messages lbls a).length = lbls.length := by
        simp only [maskTurnStep, if_pos ha]
        exact maskSlice_length _ hb.1 hb.2
      rw [ih _ (fun idx hidx hrole => by
        rw [hlen]; exact H idx (List.mem_cons_of_mem _ hidx) hrole), hlen]
    · simp only [maskTurnStep, if_neg ha]
      exact ih _ (fun idx hidx hrole => H idx (List.mem_cons_of_mem _ hidx) hrole)

/-- Pointwise characterization of the masking loop over any list of turn
indices with in-bounds spans: a position reads the sentinel exactly when
some processed non-assistant turn's span covers it, and is untouched
otherwise. -/
theorem maskFold_getElem? (render : List Turn → Bool → List Int) (messages : List Turn) :
    ∀ (l : List Nat) (lbls : List Int),
      (∀ idx ∈ l, (messages.getD idx default).role ≠ "assistant" →
        spanStart render messages idx ≤ spanEnd render messages idx ∧
          spanEnd render messages idx ≤ lbls.length) →
      ∀ i, (l.foldl (maskTurnStep render messages) lbls)[i]? =
        if ∃ idx ∈ l, (messages.getD idx default).role ≠ "assistant" ∧
            spanStart render messages idx ≤ i ∧ i < spanEnd render messages idx
        then some INGORE_INDEX else lbls[i]? := by
  intro l
  induction l with
  | nil =>
    intro lbls _ i
    simp
  | cons a t ih =>
    intro lbls H i
    simp only [List.foldl_cons]
    by_cases ha : (messages.getD a default).role ≠ "assistant"
    · have hb := H a (List.mem_cons_self a t) ha
      have hlen : (maskTurnStep render messages lbls a).length = lbls.length := by
        simp only [maskTurnStep, if_pos ha]
        exact maskSlice_length _ hb.1 hb.2
      rw [ih _ (fun idx hidx hrole => by
        rw [hlen]; exact H idx (List.mem_cons_of_mem _ hidx) hrole) i]
      simp only [maskTurnStep, if_pos ha]
      rw [maskSlice_getElem? _ hb.1 hb.2 i]
      by_cases ht : ∃ idx ∈ t, (messages.getD idx default).role ≠ "assistant" ∧
          spanStart render messages idx ≤ i ∧ i < spanEnd render messages idx
      · obtain ⟨j, hj, hjP⟩ := ht
        rw [if_pos ⟨j, hj, hjP⟩, if_pos ⟨j, List.mem_cons_of_mem _ hj, hjP⟩]
      · rw [if_neg ht]
        by_cases hai : spanStart render messages a ≤ i ∧ i < spanEnd render messages a
        · rw [if_pos hai, if_pos ⟨a, List.mem_cons_self a t, ha, hai⟩]
        · rw [if_neg hai, if_neg ?_]
          rintro ⟨j, hjmem, hjrole, hjspan⟩
          rcases List.mem_cons.mp hjmem with hj | hj
          · exact hai (hj ▸ hjspan)
          · exact ht ⟨j, hj, hjrole, hjspan⟩
    · simp only [maskTurnStep, if_neg ha]
      rw [ih lbls (fun idx hidx hrole => H idx (List.mem_cons_of_mem _ hidx) hrole) i]
      have hiff : (∃ idx ∈ a :: t, (messages.getD idx default).role ≠ "assistant" ∧
          spanStart render messages idx ≤ i ∧ i < spanEnd render messages idx) ↔
          (∃ idx ∈ t, (messages.getD idx default).role ≠ "assistant" ∧
            spanStart render messages idx ≤ i ∧ i < spanEnd render messages idx) := by
        constructor
        · rintro ⟨j, hjmem, hjrole, hjspan⟩
          rcases List.mem_cons.mp hjmem with hj | hj
          · exact absurd (hj ▸ hjrole) ha
          · exact ⟨j, hj, hjrole, hjspan⟩
        · rintro ⟨j, hj, hjrole, hjspan⟩
          exact ⟨j, List.mem_cons_of_mem _ hj, hjrole, hjspan⟩
      simp only [hiff]

/-- Chained form of the step-monotonicity of prefix-render lengths. -/
theorem prefLen_mono (render : List Turn → Bool → List Int) (messages : List Turn)
    (M1 : ∀ k < messages.length,
      prefLen render messages k false ≤ prefLen render messages (k + 1) false) :
    ∀ j k, j ≤ k → k ≤ messages.length →
      prefLen render messages j false ≤ prefLen render messages k false := by
  intro j k hjk
  induction k, hjk using Nat.le_induction with
  | base => intro _; exact le_refl _
  | succ k hjk ih =>
    intro hk
    exact le_trans (ih (by omega)) (M1 k (by omega))

/-- The total length of the full render with the generation prompt, as a
prefLen. -/
theorem prefLen_total (render : List Turn → Bool → List Int) (messages : List Turn) :
    prefLen render messages messages.length true = (render messages true).length := by
  simp [prefLen]

/-- Under the render contract (monotone prefix lengths, the generation
prompt only appends, and the generation-prompt markup is contained in the
next turn's rendering), every non-assistant turn's masked span is in
bounds of the full render. -/
theorem span_bounds (render : List Turn → Bool → List Int) (messages : List Turn)
    (M1 : ∀ k < messages.length,
      prefLen render messages k false ≤ prefLen render messages (k + 1) false)
    (M2 : ∀ k ≤ messages.length,
      prefLen render messages k false ≤ prefLen render messages k true)
    (M3 : ∀ k < messages.length,
      prefLen render messages k true ≤ prefLen render messages (k + 1) false) :
    ∀ idx < messages.length,
      spanStart render messages idx ≤ spanEnd render messages idx ∧
        spanEnd render messages idx ≤ (render messages true).length := by
  intro idx hidx
  have hmono := prefLen_mono render messages M1
  have htot := prefLen_total render messages
  constructor
  · by_cases h0 : idx = 0
    · simp only [spanStart, if_pos h0]
      exact Nat.zero_le _
    · simp only [spanStart, if_neg h0, spanEnd]
      by_cases hc : idx < messages.length - 1 ∧
          (messages.getD (idx + 1) default).role = "assistant"
      · rw [if_pos hc]
        exact le_trans (hmono idx (idx + 1) (by omega) (by omega))
          (M2 (idx + 1) (by omega))
      · rw [if_neg hc]
        exact hmono idx (idx + 1) (by omega) (by omega)
  · simp only [spanEnd]
    by_cases hc : idx < messages.length - 1 ∧
        (messages.getD (idx + 1) default).role = "assistant"
    · rw [if_pos hc]
      calc prefLen render messages (idx + 1) true
          ≤ prefLen render messages (idx + 2) false := M3 (idx + 1) (by omega)
        _ ≤ prefLen render messages messages.length false :=
            hmono (idx + 2) messages.length (by omega) (le_refl _)
        _ ≤ prefLen render messages messages.length true :=
            M2 messages.length (le_refl _)
        _ = (render messages true).length := htot
    · rw [if_neg hc]
      calc prefLen render messages (idx + 1) false
          ≤ prefLen render messages messages.length false :=
            hmono (idx + 1) messages.length (by omega) (le_refl _)
        _ ≤ prefLen render messages messages.length true :=
            M2 messages.length (le_refl _)
        _ = (render messages true).length := htot

/-- Pointwise characterization of the labels field produced by the masking
loop of preprocess_chat_dataset, under the render contract. -/
theorem maskLabels_getElem? (render : List Turn → Bool → List Int) (messages : List Turn)
    (M1 : ∀ k < messages.length,
      prefLen render messages k false ≤ prefLen render messages (k + 1) false)
    (M2 : ∀ k ≤ messages.length,
      prefLen render messages k false ≤ prefLen render messages k true)
    (M3 : ∀ k < messages.length,
      prefLen render messages k true ≤ prefLen render messages (k + 1) false)
    (i : Nat) :
    (maskLabels render messages (render messages true))[i]? =
      if ∃ idx ∈ List.range messages.length,
          (messages.getD idx default).role ≠ "assistant" ∧
          spanStart render messages idx ≤ i ∧ i < spanEnd render messages idx
      then some INGORE_INDEX else (render messages true)[i]? :=
  maskFold_getElem? render messages (List.range messages.length) (render messages true)
    (fun idx hidx _ => span_bounds render messages M1 M2 M3 idx (List.mem_range.mp hidx))
    i

/-- Length preservation of the labels field of preprocess_chat_dataset,
under the render contract. -/
theorem maskLabels_length (render : List Turn → Bool → List Int) (messages : List Turn)
    (M1 : ∀ k < messages.length,
      prefLen render messages k false ≤ prefLen render messages (k + 1) false)
    (M2 : ∀ k ≤ messages.length,
      prefLen render messages k false ≤ prefLen render messages k true)
    (M3 : ∀ k < messages.length,
      prefLen render messages k true ≤ prefLen render messages (k + 1) false) :
    (maskLabels render messages (render messages true)).length =
      (render messages true).length :=
  maskFold_length render messages (List.range messages.length) (render messages true)
    (fun idx hidx _ => span_bounds render messages M1 M2 M3 idx (List.mem_range.mp hidx))

/-- Claim C1: in preprocess_chat_dataset, for every turn whose role is not
"assistant" the labels positions in [message_start_idx, message_end_idx)
all read the IGNORE sentinel -100, where message_start_idx is the render
length of turns [0, idx) (0 for idx = 0) and message_end_idx is the render
length of turns [0, idx] with the generation prompt appended exactly when
the next turn has role "assistant"; every position inside an assistant
turn's span keeps labels[i] = input_ids[i]; and in the concrete scenario
with render lengths 0/5/3/9 for [user "2+2?", assistant "4"], labels[0:5]
is all -100 while labels[5:9] equals input_ids[5:9]. The render contract
(prefix-consistent, generation prompt only appends and is contained in
the next turn's rendering) is assumed as length hypotheses M1-M3. -/
theorem claim_masking_exact (render : List Turn → Bool → List Int) (messages : List Turn)
    (M1 : ∀ k < messages.length,
      prefLen render messages k false ≤ prefLen render messages (k + 1) false)
    (M2 : ∀ k ≤ messages.length,
      prefLen render messages k false ≤ prefLen render messages k true)
    (M3 : ∀ k < messages.length,
      prefLen render messages k true ≤ prefLen render messages (k + 1) false) :
    (∀ idx < messages.length, (messages.getD idx default).role ≠ "assistant" →
      ∀ i, spanStart render messages idx ≤ i → i < spanEnd render messages idx →
        (preprocess_chat_dataset render messages none).labels[i]? = some INGORE_INDEX)
    ∧ (∀ idx < messages.length, (messages.getD idx default).role = "assistant" →
      ∀ i, assistantSpanStart render messages idx ≤ i →
        i < prefLen render messages (idx + 1) false →
        (preprocess_chat_dataset render messages none).labels[i]? =
          (preprocess_chat_dataset render messages none).input_ids[i]?)
    ∧ ((preprocess_chat_dataset demoRender demoTurns none).labels.take 5 =
        List.replicate 5 INGORE_INDEX ∧
      (preprocess_chat_dataset demoRender demoTurns none).labels.drop 5 =
        (preprocess_chat_dataset demoRender demoTurns none).input_ids.drop 5 ∧
      (preprocess_chat_dataset demoRender demoTurns none).input_ids.length = 9) := by
  have hlab : (preprocess_chat_dataset render messages none).labels =
      maskLabels render messages (render messages true) := rfl
  have hinp : (preprocess_chat_dataset render messages none).input_ids =
      render messages true := rfl
  have hchar := maskLabels_getElem? render messages M1 M2 M3
  have hmono := prefLen_mono render messages M1
  refine ⟨?_, ?_, by decide⟩
  · intro idx hidx hrole i hi1 hi2
    rw [hlab, hchar i, if_pos ⟨idx, List.mem_range.mpr hidx, hrole, hi1, hi2⟩]
  · intro idx hidx hrole i hi1 hi2
    rw [hlab, hinp, hchar i, if_neg ?_]
    rintro ⟨j, hjmem, hjrole, hjs, hje⟩
    have hj : j < messages.length := List.mem_range.mp hjmem
    rcases Nat.lt_trichotomy j idx with hlt | heq | hgt
    · have hidx0 : idx ≠ 0 := by omega
      have hend : spanEnd render messages j ≤ assistantSpanStart render messages idx := by
        by_cases hj1 : j = idx - 1
        · have hcond : j < messages.length - 1 ∧
              (messages.getD (j + 1) default).role = "assistant" := by
            refine ⟨by omega, ?_⟩
            have hji : j + 1 = idx := by omega
            rw [hji]
            exact hrole
          have hprev : (messages.getD (idx - 1) default).role ≠ "assistant" := by
            have hij : idx - 1 = j := by omega
            rw [hij]
            exact hjrole
          simp only [spanEnd, if_pos hcond, assistantSpanStart, if_neg hidx0,
            if_pos hprev]
          have hji : j + 1 = idx := by omega
          rw [hji]
        · have hfle : spanEnd render messages j ≤ prefLen render messages idx false := by
            simp only [spanEnd]
            by_cases hc : j < messages.length - 1 ∧
                (messages.getD (j + 1) default).role = "assistant"
            · rw [if_pos hc]
              exact le_trans (M3 (j + 1) (by omega))
                (hmono (j + 2) idx (by omega) (by omega))
            · rw [if_neg hc]
              exact hmono (j + 1) idx (by omega) (by omega)
          refine le_trans hfle ?_
          simp only [assistantSpanStart, if_neg hidx0]
          by_cases hprev : (messages.getD (idx - 1) default).role ≠ "assistant"
          · rw [if_pos hprev]
            exact M2 idx (by omega)
          · rw [if_neg hprev]
      omega
    · refine hjrole ?_
      rw [heq]
      exact hrole
    · have hjs0 : spanStart render messages j = prefLen render messages j false := by
        simp only [spanStart, if_neg (by omega : ¬ j = 0)]
      have hmj : prefLen render messages (idx + 1) false ≤
          prefLen render messages j false :=
        hmono (idx + 1) j (by omega) (by omega)
      rw [hjs0] at hjs
      omega

/-- Witness for claim C1 at the concrete scenario: position 0 of the user
turn's span reads the sentinel. -/
theorem claim_masking_exact_witness :
    (preprocess_chat_dataset demoRender demoTurns none).labels[0]? = some INGORE_INDEX :=
  (claim_masking_exact demoRender demoTurns (by decide) (by decide) (by decide)).1
    0 (by decide) (by decide) 0 (by decide) (by decide)

/-- Claim C5: the three sequences of a TokenizedExample have equal length,
both without truncation and after truncation to any configured max_length,
under the render contract M1-M3. -/
theorem claim_length_invariant (render : List Turn → Bool → List Int) (messages : List Turn)
    (M1 : ∀ k < messages.length,
      prefLen render messages k false ≤ prefLen render messages (k + 1) false)
    (M2 : ∀ k ≤ messages.length,
      prefLen render messages k false ≤ prefLen render messages k true)
    (M3 : ∀ k < messages.length,
      prefLen render messages k true ≤ prefLen render messages (k + 1) false) :
    ∀ max_length : Option Nat,
      (preprocess_chat_dataset render messages max_length).input_ids.length =
        (preprocess_chat_dataset render messages max_length).labels.length ∧
      (preprocess_chat_dataset render messages max_length).labels.length =
        (preprocess_chat_dataset render messages max_length).attention_mask.length := by
  have hlab := maskLabels_length render messages M1 M2 M3
  intro ml
  cases ml with
  | none =>
    refine ⟨?_, ?_⟩
    · show (render messages true).length =
        (maskLabels render messages (render messages true)).length
      rw [hlab]
    · show (maskLabels render messages (render messages true)).length =
        (List.replicate (render messages true).length (1 : Int)).length
      rw [hlab, List.length_replicate]
  | some n =>
    refine ⟨?_, ?_⟩
    · show ((render messages true).take n).length =
        ((maskLabels render messages (render messages true)).take n).length
      simp only [List.length_take, hlab]
    · show ((maskLabels render messages (render messages true)).take n).length =
        ((List.replicate (render messages true).length (1 : Int)).take n).length
      simp only [List.length_take, hlab, List.length_replicate]

/-- Witness for claim C5 at the concrete scenario with max_length = 4. -/
theorem claim_length_invariant_witness :
    (preprocess_chat_dataset demoRender demoTurns (some 4)).input_ids.length =
      (preprocess_chat_dataset demoRender demoTurns (some 4)).labels.length ∧
    (preprocess_chat_dataset demoRender demoTurns (some 4)).labels.length =
      (preprocess_chat_dataset demoRender demoTurns (some 4)).attention_mask.length :=
  claim_length_invariant demoRender demoTurns (by decide) (by decide) (by decide) (some 4)

/-- Claim C6: truncation keeps the prefix — tokenizing with max_length = n
equals the first n elements of the untruncated tokenization, elementwise
on all three fields, and with no max_length configured the input_ids are
the full untruncated render. -/
theorem claim_truncation_law (render : List Turn → Bool → List Int) (messages : List Turn)
    (n : Nat) (_hn : n ≤ (render messages true).length) :
    (preprocess_chat_dataset render messages (some n)).input_ids =
      (preprocess_chat_dataset render messages none).input_ids.take n ∧
    (preprocess_chat_dataset render messages (some n)).labels =
      (preprocess_chat_dataset render messages none).labels.take n ∧
    (preprocess_chat_dataset render messages (some n)).attention_mask =
      (preprocess_chat_dataset render messages none).attention_mask.take n ∧
    (∀ i < n, (preprocess_chat_dataset render messages (some n)).labels[i]? =
      (preprocess_chat_dataset render messages none).labels[i]?) ∧
    (preprocess_chat_dataset render messages none).input_ids = render messages true := by
  refine ⟨rfl, rfl, rfl, ?_, rfl⟩
  intro i hi
  exact List.getElem?_take_of_lt hi

/-- Witness for claim C6 at the concrete scenario with n = 4. -/
theorem claim_truncation_law_witness :
    (preprocess_chat_dataset demoRender demoTurns (some 4)).labels =
      (preprocess_chat_dataset demoRender demoTurns none).labels.take 4 :=
  (claim_truncation_law demoRender demoTurns 4 (by decide)).2.1

/-- Claim C8: apply_input_output_template always produces the two-turn
conversation of a user turn holding the question and an assistant turn
whose content is the rationale under the "# Thinking" heading followed by
the final answer under the "## Final Response" heading; as a function of
the record it has no other inputs or effects. -/
theorem claim_template_format (q c r : String) :
    apply_input_output_template ⟨q, c, r⟩ =
      [⟨"user", "\n" ++ q ++ "\n"⟩,
       ⟨"assistant",
        "\n# Thinking\n\n\n" ++ c ++ "\n\n\n## Final Response\n\n\n" ++ r ++ "\n"⟩] :=
  rfl

/-- Claim C9: preprocess_chat_dataset is deterministic — two calls with
equal render functions, conversations and configs return equal
TokenizedExample values. -/
theorem claim_tokenize_deterministic (r1 r2 : List Turn → Bool → List Int)
    (m1 m2 : List Turn) (c1 c2 : Option Nat)
    (hr : r1 = r2) (hm : m1 = m2) (hc : c1 = c2) :
    preprocess_chat_dataset r1 m1 c1 = preprocess_chat_dataset r2 m2 c2 := by
  rw [hr, hm, hc]

/-- Witness for claim C9 at the concrete scenario. -/
theorem claim_tokenize_deterministic_witness :
    preprocess_chat_dataset demoRender demoTurns none =
      preprocess_chat_dataset demoRender demoTurns none :=
  claim_tokenize_deterministic demoRender demoRender demoTurns demoTurns none none
    rfl rfl rfl

/-- Claim C10: the masking loop mutates only the labels field — before any
truncation the input_ids are exactly the full render with the generation
prompt and the attention_mask is all ones of the same length, whatever the
conversation's turns are. -/
theorem claim_labels_only_frame (render : List Turn → Bool → List Int)
    (messages : List Turn) :
    (preprocess_chat_dataset render messages none).input_ids = render messages true ∧
    (preprocess_chat_dataset render messages none).attention_mask =
      List.replicate (render messages true).length 1 :=
  ⟨rfl, rfl⟩

end SFT

namespace DDP

/-- The epoch loop processes exactly the epochs of its epoch list, in
order, appended to whatever was processed before. -/
theorem foldl_processed {σ τ : Type} (cfg : TrainerConfig) (rank : Nat)
    (f : Nat → σ → τ → σ × τ) :
    ∀ (l : List Nat) (r : RunResult σ τ),
      (l.foldl (epochStep cfg rank f) r).processed = r.processed ++ l := by
  intro l
  induction l with
  | nil => intro r; simp
  | cons a t ih =>
    intro r
    simp only [List.foldl_cons]
    rw [ih]
    simp [epochStep]

/-- The epoch loop never touches the in-memory epochs_run counter. -/
theorem foldl_epochs_run {σ τ : Type} (cfg : TrainerConfig) (rank : Nat)
    (f : Nat → σ → τ → σ × τ) :
    ∀ (l : List Nat) (r : RunResult σ τ),
      (l.foldl (epochStep cfg rank f) r).trainer.epochs_run = r.trainer.epochs_run := by
  intro l
  induction l with
  | nil => intro r; rfl
  | cons a t ih =>
    intro r
    simp only [List.foldl_cons]
    rw [ih]
    rfl

/-- Snapshot writes happen exactly at the epochs of the epoch list that
pass the rank-0 and save-cadence test. -/
theorem foldl_writes {σ τ : Type} (cfg : TrainerConfig) (rank : Nat)
    (f : Nat → σ → τ → σ × τ) :
    ∀ (l : List Nat) (r : RunResult σ τ),
      (l.foldl (epochStep cfg rank f) r).writes =
        r.writes ++ l.filter (fun e => decide (rank = 0 ∧ e % cfg.save_every = 0)) := by
  intro l
  induction l with
  | nil => intro r; simp
  | cons a t ih =>
    intro r
    simp only [List.foldl_cons, List.filter_cons]
    by_cases h : rank = 0 ∧ a % cfg.save_every = 0
    · rw [ih]
      simp only [epochStep, if_pos h, decide_eq_true h, if_pos rfl]
      simp
    · rw [ih]
      have hd : decide (rank = 0 ∧ a % cfg.save_every = 0) = false :=
        decide_eq_false h
      simp only [epochStep, if_neg h, hd]
      simp

/-- After running the epoch loop over a list ending in an epoch that
passes the rank-0 save-cadence test, the snapshot file records that epoch
as finished. -/
theorem foldl_file_finished {σ τ : Type} (cfg : TrainerConfig) (rank : Nat)
    (f : Nat → σ → τ → σ × τ) (l : List Nat) (e : Nat) (r : RunResult σ τ)
    (h0 : rank = 0) (he : e % cfg.save_every = 0) :
    (((l ++ [e]).foldl (epochStep cfg rank f) r).file).map Snapshot.finished_epoch =
      some e := by
  rw [List.foldl_append]
  simp only [List.foldl_cons, List.foldl_nil, epochStep]
  rw [if_pos (show rank = 0 ∧ e % cfg.save_every = 0 from ⟨h0, he⟩)]
  rfl

/-- The epoch numbers of a run form the contiguous range
epochs_run + 1, ..., max_epochs. -/
theorem trainEpochs_eq_range' (a b : Nat) :
    trainEpochs a b = List.range' (a + 1) (b - a) := by
  unfold trainEpochs pyRange
  have hf : (fun e : Nat => e + 1) = (fun e : Nat => 1 + e) := by
    funext e
    exact Nat.add_comm e 1
  rw [hf, List.map_add_range' 1 a (b - a) 1, Nat.add_comm 1 a]

/-- Claim C7: with no snapshot file the trainer starts fresh — state kept,
epochs_run = 0, the fresh-start decision logged, no failure surfaced; with
a snapshot present, model state, optimizer state and the epoch counter are
restored from it. -/
theorem claim_load_snapshot (σ τ : Type) (m0 : σ) (o0 : τ) :
    (initTrainer m0 o0 none).1 = ⟨m0, o0, 0⟩ ∧
    (initTrainer m0 o0 none).2 = "Snapshot not found. Training model from scratch" ∧
    ∀ snap : Snapshot σ τ,
      (initTrainer m0 o0 (some snap)).1 =
        ⟨snap.model_state, snap.optimizer_state, snap.finished_epoch⟩ ∧
      (initTrainer m0 o0 (some snap)).2 =
        "Resuming training from snapshot at Epoch " ++ toString snap.finished_epoch :=
  ⟨rfl, rfl, fun _ => ⟨rfl, rfl⟩⟩

/-- Claim C4: a snapshot write happens exactly after the epochs that are
multiples of save_every, and only on the rank-0 worker; concretely, with
save_every = 2 and epochs 1,2,3,4 on rank 0, writes happen exactly after
epochs 2 and 4, and a rank-1 worker writes nothing. -/
theorem claim_snapshot_writes {σ τ : Type} (cfg : TrainerConfig) (rank : Nat)
    (f : Nat → σ → τ → σ × τ) (t : Trainer σ τ) (file : Option (Snapshot σ τ)) :
    (Trainer.train cfg rank f t file).writes =
      (trainEpochs t.epochs_run cfg.max_epochs).filter
        (fun e => decide (rank = 0 ∧ e % cfg.save_every = 0)) ∧
    (rank ≠ 0 → (Trainer.train cfg rank f t file).writes = []) ∧
    (Trainer.train ⟨4, 2, false⟩ 0 demoStep ⟨0, 0, 0⟩ none).writes = [2, 4] ∧
    (Trainer.train ⟨4, 2, false⟩ 1 demoStep ⟨0, 0, 0⟩ none).writes = [] := by
  have hw : (Trainer.train cfg rank f t file).writes =
      (trainEpochs t.epochs_run cfg.max_epochs).filter
        (fun e => decide (rank = 0 ∧ e % cfg.save_every = 0)) := by
    unfold Trainer.train
    rw [foldl_writes]
    simp
  refine ⟨hw, ?_, by decide, by decide⟩
  intro hrank
  rw [hw]
  have hfun : (fun e => decide (rank = 0 ∧ e % cfg.save_every = 0)) =
      (fun _ : Nat => false) := by
    funext e
    exact decide_eq_false (fun hc => hrank hc.1)
  rw [hfun]
  exact List.filter_false _

/-- Witness for claim C4: the rank-1 worker writes no snapshot in the
concrete four-epoch run. -/
theorem claim_snapshot_writes_witness :
    (Trainer.train ⟨4, 2, false⟩ 1 demoStep ⟨0, 0, 0⟩ none).writes = [] :=
  (claim_snapshot_writes ⟨4, 2, false⟩ 1 demoStep ⟨0, 0, 0⟩ none).2.1 (by decide)

/-- Counterexample to claim C2 as stated: a fresh rank-0 run with
max_epochs = 2 and save_every = 1 completes epochs 1 and 2, yet the
in-memory epochs_run counter still reads 0 afterwards — the epoch loop of
Trainer.train never mutates it (it is only assigned when a snapshot is
loaded), so "the in-memory epochs_completed counter being mutated after
every completed epoch" is false, and after training to epoch m the
in-memory counter does not equal m. -/
theorem claim_resume_counterexample :
    (Trainer.train ⟨2, 1, false⟩ 0 demoStep ⟨0, 0, 0⟩ none).processed = [1, 2] ∧
    (Trainer.train ⟨2, 1, false⟩ 0 demoStep ⟨0, 0, 0⟩ none).trainer.epochs_run = 0 ∧
    (Trainer.train ⟨2, 1, false⟩ 0 demoStep ⟨0, 0, 0⟩ none).trainer.epochs_run ≠ 2 := by
  decide

/-- Claim C2 as amended: the epoch loop runs exactly the epochs
epochs_run + 1 through max_epochs; training a fresh trainer to epoch k at
cadence s (with s dividing k), restarting from the snapshot it wrote, and
training to m > k processes epochs k + 1 .. m exactly — across both runs
the epochs 1 .. m are each processed exactly once — and the epoch counter
reaches m in the persisted snapshot (finished_epoch = m when s divides m),
while the in-memory epochs_run counter holds the value k set at snapshot
load and is not mutated by the epoch loop. -/
theorem claim_resume_amended {σ τ : Type} (f : Nat → σ → τ → σ × τ) (m0 : σ) (o0 : τ)
    (s k m : Nat) (amp : Bool)
    (hk : 0 < k) (hkm : k < m) (hks : k % s = 0) (hms : m % s = 0) :
    (∀ (cfg : TrainerConfig) (rank : Nat) (t : Trainer σ τ)
        (file : Option (Snapshot σ τ)),
      (Trainer.train cfg rank f t file).processed =
        trainEpochs t.epochs_run cfg.max_epochs) ∧
    ∃ snap : Snapshot σ τ,
      (resumeRun1 f m0 o0 s k amp).file = some snap ∧
      snap.finished_epoch = k ∧
      (initTrainer m0 o0 (some snap)).1.epochs_run = k ∧
      (resumeRun2 f m0 o0 s m amp snap).processed = List.range' (k + 1) (m - k) ∧
      (resumeRun1 f m0 o0 s k amp).processed ++
        (resumeRun2 f m0 o0 s m amp snap).processed = List.range' 1 m ∧
      ((resumeRun1 f m0 o0 s k amp).processed ++
        (resumeRun2 f m0 o0 s m amp snap).processed).Nodup ∧
      (resumeRun2 f m0 o0 s m amp snap).trainer.epochs_run = k ∧
      ((resumeRun2 f m0 o0 s m amp snap).file).map Snapshot.finished_epoch = some m := by
  have hproc : ∀ (cfg : TrainerConfig) (rank : Nat) (t : Trainer σ τ)
      (file : Option (Snapshot σ τ)),
      (Trainer.train cfg rank f t file).processed =
        trainEpochs t.epochs_run cfg.max_epochs := by
    intro cfg rank t file
    unfold Trainer.train
    rw [foldl_processed]
    simp
  have hlist1 : trainEpochs (0 : Nat) k = List.range' 1 (k - 1) ++ [k] := by
    rw [trainEpochs_eq_range', Nat.zero_add, Nat.sub_zero]
    have hk1 : k = (k - 1) + 1 := by omega
    conv_lhs => rw [hk1]
    rw [List.range'_concat]
    have h1k : 1 + 1 * (k - 1) = k := by omega
    rw [h1k]
  have hfile1 : ((resumeRun1 f m0 o0 s k amp).file).map Snapshot.finished_epoch =
      some k := by
    show (Option.map Snapshot.finished_epoch
      (List.foldl (epochStep ⟨k, s, amp⟩ 0 f)
        ⟨⟨m0, o0, 0⟩, none, [], []⟩ (trainEpochs 0 k)).file) = some k
    rw [hlist1]
    exact foldl_file_finished ⟨k, s, amp⟩ 0 f (List.range' 1 (k - 1)) k
      ⟨⟨m0, o0, 0⟩, none, [], []⟩ rfl hks
  obtain ⟨snap, hsnap, hfin⟩ := Option.map_eq_some'.mp hfile1
  have hrun2 : (initTrainer m0 o0 (some snap)).1.epochs_run = k := by
    show snap.finished_epoch = k
    exact hfin
  have hproc1 : (resumeRun1 f m0 o0 s k amp).processed = List.range' 1 k := by
    show (List.foldl (epochStep ⟨k, s, amp⟩ 0 f)
      ⟨⟨m0, o0, 0⟩, none, [], []⟩ (trainEpochs 0 k)).processed = List.range' 1 k
    rw [foldl_processed, List.nil_append, trainEpochs_eq_range', Nat.zero_add,
      Nat.sub_zero]
  have hproc2 : (resumeRun2 f m0 o0 s m amp snap).processed =
      List.range' (k + 1) (m - k) := by
    show (List.foldl (epochStep ⟨m, s, amp⟩ 0 f)
      ⟨⟨snap.model_state, snap.optimizer_state, snap.finished_epoch⟩, some snap, [], []⟩
      (trainEpochs snap.finished_epoch m)).processed = List.range' (k + 1) (m - k)
    rw [foldl_processed, List.nil_append, hfin, trainEpochs_eq_range']
  have hcat : List.range' 1 k ++ List.range' (k + 1) (m - k) = List.range' 1 m := by
    have happ := List.range'_append_1 1 k (m - k)
    rw [Nat.add_comm 1 k] at happ
    rw [happ]
    have hkm' : m - k + k = m := by omega
    rw [hkm']
  refine ⟨hproc, snap, hsnap, hfin, hrun2, hproc2, ?_, ?_, ?_, ?_⟩
  · rw [hproc1, hproc2, hcat]
  · rw [hproc1, hproc2, hcat]
    exact List.nodup_range' _ _
  · show (List.foldl (epochStep ⟨m, s, amp⟩ 0 f)
      ⟨⟨snap.model_state, snap.optimizer_state, snap.finished_epoch⟩, some snap, [], []⟩
      (trainEpochs snap.finished_epoch m)).trainer.epochs_run = k
    rw [foldl_epochs_run]
    exact hfin
  · have hlist2 : trainEpochs k m = List.range' (k + 1) (m - k - 1) ++ [m] := by
      rw [trainEpochs_eq_range']
      have hm1 : m - k = (m - k - 1) + 1 := by omega
      nth_rewrite 1 [hm1]
      rw [List.range'_concat]
      have h1m : k + 1 + 1 * (m - k - 1) = m := by omega
      rw [h1m]
    show (Option.map Snapshot.finished_epoch
      (List.foldl (epochStep ⟨m, s, amp⟩ 0 f)
        ⟨⟨snap.model_state, snap.optimizer_state, snap.finished_epoch⟩, some snap, [], []⟩
        (trainEpochs snap.finished_epoch m)).file) = some m
    rw [hfin, hlist2]
    exact foldl_file_finished ⟨m, s, amp⟩ 0 f (List.range' (k + 1) (m - k - 1)) m
      ⟨⟨snap.model_state, snap.optimizer_state, k⟩, some snap, [], []⟩
      rfl hms

/-- Witness for the amended claim C2: the concrete resume scenario with
k = 2, m = 4 and save cadence 2 over a Nat model/optimizer payload. -/
theorem claim_resume_amended_witness :
    ∃ snap : Snapshot Nat Nat,
      (resumeRun1 demoStep 0 0 2 2 false).file = some snap ∧
      snap.finished_epoch = 2 ∧
      (initTrainer 0 0 (some snap)).1.epochs_run = 2 ∧
      (resumeRun2 demoStep 0 0 2 4 false snap).processed = List.range' (2 + 1) (4 - 2) ∧
      (resumeRun1 demoStep 0 0 2 2 false).processed ++
        (resumeRun2 demoStep 0 0 2 4 false snap).processed = List.range' 1 4 ∧
      ((resumeRun1 demoStep 0 0 2 2 false).processed ++
        (resumeRun2 demoStep 0 0 2 4 false snap).processed).Nodup ∧
      (resumeRun2 demoStep 0 0 2 4 false snap).trainer.epochs_run = 2 ∧
      ((resumeRun2 demoStep 0 0 2 4 false snap).file).map Snapshot.finished_epoch =
        some 4 :=
  (claim_resume_amended demoStep 0 0 2 2 4 false (by decide) (by decide) (by decide)
    (by decide)).2

/-- Counterexample to claim C3 as stated: the claimed order puts zeroing
the gradients before the forward loss, but _run_batch computes the forward
loss first — at use_amp = false, train = true the actual trace differs
from the claimed sequence. -/
theorem claim_step_order_counterexample :
    runBatchTrace false true ≠ specStepOrder false ∧
    runBatchTrace false true =
      [BatchOp.forward, BatchOp.zeroGrad, BatchOp.backward, BatchOp.clipGradNorm,
        BatchOp.optStep] := by
  decide

/-- Claim C3 as amended: per batch the step computes the forward loss
first, then — only when training — zeroes the gradients, backpropagates
(through gradient scaling when use_amp is on), clips the gradient norm and
steps the optimizer (and scaler); with train = False none of the
gradient or optimizer operations occur. -/
theorem claim_step_order_amended :
    (∀ amp : Bool, runBatchTrace amp true =
      [BatchOp.forward, BatchOp.zeroGrad] ++
        (if amp then
          [BatchOp.scaleBackward, BatchOp.clipGradNorm, BatchOp.scalerStep,
            BatchOp.scalerUpdate]
        else [BatchOp.backward, BatchOp.clipGradNorm, BatchOp.optStep])) ∧
    (∀ amp : Bool, runBatchTrace amp false = [BatchOp.forward]) := by
  constructor
  · intro amp
    cases amp <;> decide
  · intro amp
    cases amp <;> decide

end DDP
